import Mathlib

/-!
# Verification of the kallisti-scalper position lifecycle and ledger engine

Shallow embedding of `src/config.ts` (its final, fee-aware definition),
`src/risk/recovery-manager.ts`, `src/ledger.ts` and `src/github-sync.ts`.

Modelling conventions:
* JavaScript numbers are modelled as exact rationals (`ℚ`); floating-point
  rounding is outside the model.
* `Date.now()` is passed explicitly as a `now : ℚ` parameter (milliseconds).
* Randomly generated position ids are passed explicitly as a `String`.
* Log strings that interpolate formatted numbers are abstracted to tags.
* The JSON (de)serialisation of the persisted ledger and the base64
  encode/decode round-trip of the GitHub content API are elided: a persisted
  or transmitted payload is represented by the value it encodes.
-/

/-- The `side` field of a position: `"Long" | "Short"`. -/
inductive Side where
  | long
  | short
deriving DecidableEq, Repr

/-- The `status` field of a position. The `Position` interface allows
`"open" | "closed"`; `ledger.ts` additionally filters on a `"recovery"`
status, so it is included. `opn` stands for the source's `"open"`
(a reserved word in Lean). -/
inductive PStatus where
  | opn
  | closed
  | recovery
deriving DecidableEq, Repr

/-- The `config.fees.feeMode : "taker" | "maker"`. -/
inductive FeeMode where
  | taker
  | maker
deriving DecidableEq, Repr

/-- The `config.futures` (final config definition in `src/config.ts`). -/
structure FuturesConfig where
  leverage : ℚ
  maxPositions : ℕ
deriving DecidableEq, Repr

/-- The `config.fees`. -/
structure FeesConfig where
  takerFeePercent : ℚ
  makerFeePercent : ℚ
  feeMode : FeeMode
deriving DecidableEq, Repr

/-- The `config.strategy`; fields used by the risk/ledger core. The
`underwaterCutSeconds` / `underwaterMinLoss` fields are absent from the
final config object and are read with `?? default` in the source, hence
`Option`. Momentum-detection fields are not used by the verified core and
are omitted. -/
structure StrategyConfig where
  minProfitDollars : ℚ
  maxProfitDollars : ℚ
  quickGrabDollars : ℚ
  targetProfitPercent : ℚ
  initialStopPercent : ℚ
  maxTradeSeconds : ℚ
  quickExitSeconds : ℚ
  underwaterCutSeconds : Option ℚ
  underwaterMinLoss : Option ℚ
deriving DecidableEq, Repr

/-- The `config.risk`. -/
structure RiskConfig where
  initialBalance : ℚ
  riskPerTrade : ℚ
  maxDailyLossDollars : ℚ
  maxConsecutiveLosses : ℕ
  pauseAfterLossesMinutes : ℚ
  maxTradesPerHour : ℕ
deriving DecidableEq, Repr

/-- The configuration record (subset used by the verified core). -/
structure Config where
  futures : FuturesConfig
  fees : FeesConfig
  strategy : StrategyConfig
  risk : RiskConfig
  ledgerPath : String
deriving DecidableEq, Repr

/-- The final `export const config` definition of `src/config.ts`
(SNIPER v3, fee-aware). -/
def config : Config :=
  { futures := { leverage := 75, maxPositions := 1 }
    fees := { takerFeePercent := 0.04, makerFeePercent := 0.02, feeMode := .taker }
    strategy :=
      { minProfitDollars := 35
        maxProfitDollars := 100
        quickGrabDollars := 15
        targetProfitPercent := 0.25
        initialStopPercent := 0.15
        maxTradeSeconds := 180
        quickExitSeconds := 45
        underwaterCutSeconds := none
        underwaterMinLoss := none }
    risk :=
      { initialBalance := 2000
        riskPerTrade := 500
        maxDailyLossDollars := 200
        maxConsecutiveLosses := 3
        pauseAfterLossesMinutes := 30
        maxTradesPerHour := 4 }
    ledgerPath := "./data/ledger.json" }

/-- The `Position` interface of `src/risk/recovery-manager.ts`. -/
structure Position where
  id : String
  side : Side
  entryPrice : ℚ
  entryTime : ℚ
  collateral : ℚ
  leverage : ℚ
  stopLoss : ℚ
  takeProfit : ℚ
  minProfitTarget : ℚ
  maxProfitTarget : ℚ
  status : PStatus
  exitPrice : Option ℚ
  exitTime : Option ℚ
  pnl : Option ℚ
  fees : Option ℚ
  grossPnl : Option ℚ
  reason : Option String
deriving DecidableEq, Repr

/-- The `PositionUpdate` interface of `src/risk/recovery-manager.ts`. -/
structure PositionUpdate where
  shouldClose : Bool
  reason : Option String
  exitPrice : Option ℚ
deriving DecidableEq, Repr

namespace RecoveryManager

/-- The `calcFees` (recovery-manager.ts, lines 40-45): round-trip fees for a
position of notional size `positionSize`. -/
def calcFees (positionSize : ℚ) : ℚ :=
  let feeRate :=
    match config.fees.feeMode with
    | .taker => config.fees.takerFeePercent
    | .maker => config.fees.makerFeePercent
  positionSize * (feeRate / 100) * 2

/-- The `createPosition` (recovery-manager.ts, lines 47-77). The generated id
string and `Date.now()` are passed explicitly; the function is pure (it
touches no ledger state). -/
def createPosition (side : Side) (entryPrice collateral : ℚ)
    (idStr : String) (now : ℚ) : Position :=
  let leverage := config.futures.leverage
  let stopPct := config.strategy.initialStopPercent / 100
  let targetPct := config.strategy.targetProfitPercent / 100
  let stopLoss :=
    if side = .long then entryPrice * (1 - stopPct) else entryPrice * (1 + stopPct)
  let takeProfit :=
    if side = .long then entryPrice * (1 + targetPct) else entryPrice * (1 - targetPct)
  { id := idStr
    side := side
    entryPrice := entryPrice
    entryTime := now
    collateral := collateral
    leverage := leverage
    stopLoss := stopLoss
    takeProfit := takeProfit
    minProfitTarget := config.strategy.minProfitDollars
    maxProfitTarget := config.strategy.maxProfitDollars
    status := .opn
    exitPrice := none
    exitTime := none
    pnl := none
    fees := none
    grossPnl := none
    reason := none }

/-- The `updatePosition` (recovery-manager.ts, lines 79-141): the exit ladder.
Rules are evaluated top to bottom, first match wins. -/
def updatePosition (position : Position) (currentPrice : ℚ) (now : ℚ) :
    PositionUpdate :=
  let elapsed := (now - position.entryTime) / 1000
  let posSize := position.collateral * position.leverage
  let fees := calcFees posSize
  let grossPnlPct :=
    if position.side = .long then
      ((currentPrice - position.entryPrice) / position.entryPrice) * 100
    else
      ((position.entryPrice - currentPrice) / position.entryPrice) * 100
  let grossPnl := (grossPnlPct / 100) * posSize
  let netPnl := grossPnl - fees
  if position.side = .long ∧ currentPrice ≤ position.stopLoss then
    { shouldClose := true, reason := some "stop-loss", exitPrice := some currentPrice }
  else if position.side = .short ∧ currentPrice ≥ position.stopLoss then
    { shouldClose := true, reason := some "stop-loss", exitPrice := some currentPrice }
  else if netPnl ≥ position.maxProfitTarget then
    { shouldClose := true, reason := some "max-profit", exitPrice := some currentPrice }
  else if netPnl ≥ position.minProfitTarget then
    { shouldClose := true, reason := some "take-profit", exitPrice := some currentPrice }
  else if elapsed ≥ config.strategy.quickExitSeconds ∧ netPnl ≥ config.strategy.quickGrabDollars then
    { shouldClose := true, reason := some "quick-profit", exitPrice := some currentPrice }
  else if elapsed ≥ 90 ∧ netPnl ≥ 0 then
    { shouldClose := true, reason := some "breakeven-exit", exitPrice := some currentPrice }
  else if elapsed ≥ (config.strategy.underwaterCutSeconds.getD 120) ∧
      netPnl < (config.strategy.underwaterMinLoss.getD (-10)) then
    { shouldClose := true, reason := some "underwater-cut", exitPrice := some currentPrice }
  else if elapsed ≥ config.strategy.maxTradeSeconds then
    { shouldClose := true
      reason := some (if netPnl ≥ 0 then "timeout-green" else "timeout-red")
      exitPrice := some currentPrice }
  else
    { shouldClose := false, reason := none, exitPrice := none }

/-- The `(grossPnl, fees, netPnl)` triple computed inside `updatePosition`
(recovery-manager.ts, lines 85-92), extracted for comparison with
`closePosition`. -/
def updateNumbers (position : Position) (currentPrice : ℚ) : ℚ × ℚ × ℚ :=
  let posSize := position.collateral * position.leverage
  let fees := calcFees posSize
  let grossPnlPct :=
    if position.side = .long then
      ((currentPrice - position.entryPrice) / position.entryPrice) * 100
    else
      ((position.entryPrice - currentPrice) / position.entryPrice) * 100
  let grossPnl := (grossPnlPct / 100) * posSize
  (grossPnl, fees, grossPnl - fees)

/-- The decision chain of `updatePosition`, abstracted over the pnl numbers
it branches on; used to certify that `updateNumbers` is exactly what
`updatePosition` computes. -/
def decisionFromNumbers (position : Position) (currentPrice now : ℚ)
    (nums : ℚ × ℚ × ℚ) : PositionUpdate :=
  let elapsed := (now - position.entryTime) / 1000
  let netPnl := nums.2.2
  if position.side = .long ∧ currentPrice ≤ position.stopLoss then
    { shouldClose := true, reason := some "stop-loss", exitPrice := some currentPrice }
  else if position.side = .short ∧ currentPrice ≥ position.stopLoss then
    { shouldClose := true, reason := some "stop-loss", exitPrice := some currentPrice }
  else if netPnl ≥ position.maxProfitTarget then
    { shouldClose := true, reason := some "max-profit", exitPrice := some currentPrice }
  else if netPnl ≥ position.minProfitTarget then
    { shouldClose := true, reason := some "take-profit", exitPrice := some currentPrice }
  else if elapsed ≥ config.strategy.quickExitSeconds ∧ netPnl ≥ config.strategy.quickGrabDollars then
    { shouldClose := true, reason := some "quick-profit", exitPrice := some currentPrice }
  else if elapsed ≥ 90 ∧ netPnl ≥ 0 then
    { shouldClose := true, reason := some "breakeven-exit", exitPrice := some currentPrice }
  else if elapsed ≥ (config.strategy.underwaterCutSeconds.getD 120) ∧
      netPnl < (config.strategy.underwaterMinLoss.getD (-10)) then
    { shouldClose := true, reason := some "underwater-cut", exitPrice := some currentPrice }
  else if elapsed ≥ config.strategy.maxTradeSeconds then
    { shouldClose := true
      reason := some (if netPnl ≥ 0 then "timeout-green" else "timeout-red")
      exitPrice := some currentPrice }
  else
    { shouldClose := false, reason := none, exitPrice := none }

/-- The `closePosition` (recovery-manager.ts, lines 143-166): pure close
transition; recomputes the pnl numbers at `exitPrice` and fills the exit
fields. `Date.now()` is the explicit `now`. -/
def closePosition (position : Position) (exitPrice : ℚ) (reason : String)
    (now : ℚ) : Position :=
  let posSize := position.collateral * position.leverage
  let fees := calcFees posSize
  let grossPnlPct :=
    if position.side = .long then
      ((exitPrice - position.entryPrice) / position.entryPrice) * 100
    else
      ((position.entryPrice - exitPrice) / position.entryPrice) * 100
  let grossPnl := (grossPnlPct / 100) * posSize
  let netPnl := grossPnl - fees
  { position with
    status := .closed
    exitPrice := some exitPrice
    exitTime := some now
    pnl := some netPnl
    fees := some fees
    grossPnl := some grossPnl
    reason := some reason }

end RecoveryManager

/-- The `LedgerState` interface of `src/ledger.ts`. -/
structure LedgerState where
  balance : ℚ
  initialBalance : ℚ
  dailyStartBalance : ℚ
  dailyPnl : ℚ
  consecutiveLosses : ℕ
  positions : List Position
  lastReset : ℚ
  tradesThisHour : ℕ
  lastHourReset : ℚ
  pausedUntil : Option ℚ
deriving DecidableEq, Repr

/-- Rejection tags for `canOpenPosition`; the source returns log strings
with interpolated numbers, abstracted here to the branch that produced
them. -/
inductive RejectReason where
  | paused
  | maxPositionsOpen
  | dailyLossLimit
  | maxTradesPerHourReached
  | insufficientBalance
deriving DecidableEq, Repr

/-- Result value of `canOpenPosition`: `{ allowed: boolean; reason?: ... }`. -/
structure OpenDecision where
  allowed : Bool
  reason : Option RejectReason
deriving DecidableEq, Repr

/-- The `Array.prototype.findIndex` on a list: index of the first element
satisfying `p`, if any. -/
def findIndex (p : α → Bool) : List α → Option ℕ
  | [] => none
  | x :: xs => if p x then some 0 else (findIndex p xs).map (· + 1)

namespace Ledger

/-- The `Ledger` constructor (ledger.ts, lines 23-35); `Date.now()` is the
explicit `now`. -/
def initState (now : ℚ) : LedgerState :=
  { balance := config.risk.initialBalance
    initialBalance := config.risk.initialBalance
    dailyStartBalance := config.risk.initialBalance
    dailyPnl := 0
    consecutiveLosses := 0
    positions := []
    lastReset := now
    tradesThisHour := 0
    lastHourReset := now
    pausedUntil := none }

/-- The `get openPositions` (ledger.ts, lines 54-56). -/
def openPositions (st : LedgerState) : List Position :=
  st.positions.filter (fun p => p.status == .opn || p.status == .recovery)

/-- The `get closedPositions` (ledger.ts, lines 58-60). -/
def closedPositions (st : LedgerState) : List Position :=
  st.positions.filter (fun p => p.status == .closed)

/-- The `get availableBalance` (ledger.ts, lines 62-68). -/
def availableBalance (st : LedgerState) : ℚ :=
  st.balance - ((openPositions st).map (fun p => p.collateral)).sum

/-- The pause test of `canOpenPosition` (ledger.ts, line 72):
`pausedUntil && Date.now() < pausedUntil`. -/
def pausedAt (st : LedgerState) (now : ℚ) : Bool :=
  match st.pausedUntil with
  | some t => decide (now < t)
  | none => false

/-- The in-place hourly-window reset of `canOpenPosition` (ledger.ts,
lines 96-101), factored out: reset the counter when more than an hour has
passed since `lastHourReset`. -/
def hourlyReset (st : LedgerState) (now : ℚ) : LedgerState :=
  if now - st.lastHourReset > 3600000 then
    { st with tradesThisHour := 0, lastHourReset := now }
  else st

/-- The `canOpenPosition` (ledger.ts, lines 70-119). The method can mutate the
hourly-window fields of `this.state`, so it returns the (possibly updated)
state together with the decision. -/
def canOpenPosition (st : LedgerState) (now : ℚ) : LedgerState × OpenDecision :=
  if pausedAt st now then
    (st, { allowed := false, reason := some .paused })
  else if (openPositions st).length ≥ config.futures.maxPositions then
    (st, { allowed := false, reason := some .maxPositionsOpen })
  else if |st.dailyPnl| ≥ config.risk.maxDailyLossDollars then
    (st, { allowed := false, reason := some .dailyLossLimit })
  else if (hourlyReset st now).tradesThisHour ≥ config.risk.maxTradesPerHour then
    (hourlyReset st now, { allowed := false, reason := some .maxTradesPerHourReached })
  else if availableBalance (hourlyReset st now) < config.risk.riskPerTrade then
    (hourlyReset st now, { allowed := false, reason := some .insufficientBalance })
  else
    (hourlyReset st now, { allowed := true, reason := none })

/-- The `openPosition` (ledger.ts, lines 121-126), minus the `save()` call,
which is modelled separately as `openPositionOps`. -/
def openPosition (st : LedgerState) (position : Position) : LedgerState :=
  { st with
    positions := st.positions ++ [position]
    tradesThisHour := st.tradesThisHour + 1
    balance := st.balance - position.collateral }

/-- The `closePosition` (ledger.ts, lines 128-153), minus the `save()` call.
Returns the updated state and the closed position (`undefined` when the id
is not found). The inner `get?` branch is unreachable: `findIndex` only
returns indices in range. -/
def closePosition (st : LedgerState) (positionId : String) (exitPrice : ℚ)
    (reason : String) (now : ℚ) : LedgerState × Option Position :=
  match findIndex (fun p => p.id == positionId) st.positions with
  | none => (st, none)
  | some idx =>
    match st.positions.get? idx with
    | none => (st, none)
    | some position =>
      let closed := RecoveryManager.closePosition position exitPrice reason now
      let newPositions := st.positions.set idx closed
      let newBalance := st.balance + closed.collateral + closed.pnl.getD 0
      let newDailyPnl := st.dailyPnl + closed.pnl.getD 0
      let lossState :=
        if closed.pnl.getD 0 < 0 then
          let cl := st.consecutiveLosses + 1
          (cl,
            if cl ≥ config.risk.maxConsecutiveLosses then
              some (now + config.risk.pauseAfterLossesMinutes * 60 * 1000)
            else st.pausedUntil)
        else (0, st.pausedUntil)
      ({ st with
          positions := newPositions
          balance := newBalance
          dailyPnl := newDailyPnl
          consecutiveLosses := lossState.1
          pausedUntil := lossState.2 },
        some closed)

/-- The `resetDaily` (ledger.ts, lines 155-160). -/
def resetDaily (st : LedgerState) (now : ℚ) : LedgerState :=
  { st with
    dailyStartBalance := st.balance
    dailyPnl := 0
    consecutiveLosses := 0
    lastReset := now }

end Ledger

/-- A mutating ledger call, for reasoning about call sequences. -/
inductive LedgerOp where
  | openPos (p : Position)
  | closePos (id : String) (exitPrice : ℚ) (reason : String) (now : ℚ)

/-- Apply one mutating call. -/
def Ledger.applyOp (st : LedgerState) : LedgerOp → LedgerState
  | .openPos p => Ledger.openPosition st p
  | .closePos id exitPrice reason now =>
    (Ledger.closePosition st id exitPrice reason now).1

/-- Run a sequence of mutating calls left to right. -/
def Ledger.run (st : LedgerState) : List LedgerOp → LedgerState
  | [] => st
  | op :: rest => Ledger.run (Ledger.applyOp st op) rest

/-- Well-formed use of one call, as the decision loop produces it: an open
appends a not-yet-closed position, and a close targets an id that is not
already closed among the stored positions. -/
def Ledger.wfOp (st : LedgerState) : LedgerOp → Bool
  | .openPos p => !(p.status == .closed)
  | .closePos id _ _ _ =>
    st.positions.all (fun q => !(q.id == id) || !(q.status == .closed))

/-- Well-formed call sequence from a given state. -/
def Ledger.wfTrace (st : LedgerState) : List LedgerOp → Bool
  | [] => true
  | op :: rest => Ledger.wfOp st op && Ledger.wfTrace (Ledger.applyOp st op) rest

/-- Signed contribution of one stored position to
`balance − initialBalance`: a closed position contributes its net pnl, a
not-yet-closed one has its collateral locked. -/
def contribution (p : Position) : ℚ :=
  if p.status == .closed then p.pnl.getD 0 else -p.collateral

/-- Sum of `pnl` over the stored positions with status closed. -/
def closedPnlSum (l : List Position) : ℚ :=
  ((l.filter (fun p => p.status == .closed)).map (fun p => p.pnl.getD 0)).sum

/-- Sum of `collateral` over the stored positions not yet closed. -/
def lockedCollateralSum (l : List Position) : ℚ :=
  ((l.filter (fun p => !(p.status == .closed))).map (fun p => p.collateral)).sum

/-- The conservation invariant that actually holds of the ledger. -/
def conserves (st : LedgerState) : Prop :=
  st.balance = st.initialBalance + (st.positions.map contribution).sum

/-- A query-only call sequence: calls that never touch `dailyPnl`
(`canOpenPosition` queries and `openPosition`; price moves do not touch the
ledger at all). -/
inductive QueryOp where
  | openPos (p : Position)
  | canOpen (now : ℚ)

/-- Run a query-only call sequence (each `canOpenPosition` call commits its
state update). -/
def Ledger.runQuery (st : LedgerState) : List QueryOp → LedgerState
  | [] => st
  | .openPos p :: rest => Ledger.runQuery (Ledger.openPosition st p) rest
  | .canOpen now :: rest => Ledger.runQuery (Ledger.canOpenPosition st now).1 rest

/-- A file-system operation performed by the persistence layer. The written
payload is represented by the ledger state it serialises. -/
inductive FsOp where
  | write (path : String) (content : LedgerState)
  | rename (src : String) (dst : String)
deriving DecidableEq

/-- The `save` (ledger.ts, lines 47-52): one direct `writeFile` of the
serialised state to `config.ledgerPath`. -/
def Ledger.saveOps (st : LedgerState) : List FsOp :=
  [FsOp.write config.ledgerPath st]

/-- File-system trace of `openPosition` (it ends with `await this.save()`). -/
def Ledger.openPositionOps (st : LedgerState) (position : Position) : List FsOp :=
  Ledger.saveOps (Ledger.openPosition st position)

/-- File-system trace of `closePosition`: the early `return` on a missing
id happens before `save()`, otherwise the mutated state is saved. -/
def Ledger.closePositionOps (st : LedgerState) (positionId : String)
    (exitPrice : ℚ) (reason : String) (now : ℚ) : List FsOp :=
  match findIndex (fun p => p.id == positionId) st.positions with
  | none => []
  | some _ => Ledger.saveOps (Ledger.closePosition st positionId exitPrice reason now).1

/-- Modelled from the spec: the temp-file-then-rename atomic replace
pattern the spec requires of the persisted ledger record ("written
atomically (temp-file-then-rename or equivalent)"). -/
def atomicReplacePattern (ops : List FsOp) (finalPath : String) : Prop :=
  ∃ tmp content, tmp ≠ finalPath ∧
    ops = [FsOp.write tmp content, FsOp.rename tmp finalPath]

namespace GitHubSync

/-- Outcome of one GitHub contents-API `PUT`. `conflict` is HTTP 409;
`errOther` stands for any other non-ok status. -/
inductive PutResp where
  | ok (newSha : String)
  | conflict
  | errOther
deriving DecidableEq, Repr

/-- One remote or local-file operation performed by the sync layer. A `put`
carries the file content it uploads (base64 round-trip elided) and the
`sha` field of the request body, absent when the cached sha is empty. -/
inductive GhOp where
  | readLocal
  | fetchSha
  | put (content : String) (sha : Option String)
  | writeLocal (content : String)
deriving DecidableEq, Repr

/-- The environment a `pushLedger` call runs against: the current local
ledger file content, the successive results of `fetchRemoteSha` (an empty
string models its failure path), and the successive `PUT` responses. -/
structure SyncEnv where
  localContent : String
  fetchResults : List String
  putResults : List PutResp

/-- Result of `pushLedger`: its boolean return, the cached `this.sha`
after the call, and the operations performed, in order. -/
structure PushOutcome where
  success : Bool
  sha : String
  ops : List GhOp
deriving DecidableEq, Repr

/-- Pop the next `fetchRemoteSha` result ("" when exhausted, matching the
catch-all failure return). -/
def popFetch : List String → String × List String
  | [] => ("", [])
  | s :: rest => (s, rest)

/-- Pop the next `PUT` response (`errOther` when exhausted). -/
def popPut : List PutResp → PutResp × List PutResp
  | [] => (.errOther, [])
  | r :: rest => (r, rest)

/-- One loop iteration of `pushLedger` (github-sync.ts, lines 86-136),
shared by the first attempt and the retry: read the local file, fetch the
sha if the cache is empty, `PUT` with the cached sha when non-empty. -/
def pushStep (localContent : String) (sha : String) (fetchQ : List String)
    (putQ : List PutResp) (opsAcc : List GhOp) :
    PutResp × String × List String × List PutResp × List GhOp :=
  let ops1 := opsAcc ++ [GhOp.readLocal]
  let fetched := if sha = "" then popFetch fetchQ else (sha, fetchQ)
  let ops2 := if sha = "" then ops1 ++ [GhOp.fetchSha] else ops1
  let shaField : Option String := if fetched.1 = "" then none else some fetched.1
  let ops3 := ops2 ++ [GhOp.put localContent shaField]
  let popped := popPut putQ
  (popped.1, fetched.1, fetched.2, popped.2, ops3)

/-- The `pushLedger` (github-sync.ts, lines 79-139), the two-attempt loop
unrolled. On a 409 in attempt 0 the sha is re-fetched and the loop
continues; any other failure, or a 409 in attempt 1, returns `false`. -/
def pushLedger (haveToken : Bool) (sha0 : String) (env : SyncEnv) : PushOutcome :=
  if !haveToken then
    { success := false, sha := sha0, ops := [] }
  else
    let s0 := pushStep env.localContent sha0 env.fetchResults env.putResults []
    match s0.1 with
    | .ok s => { success := true, sha := s, ops := s0.2.2.2.2 }
    | .errOther => { success := false, sha := s0.2.1, ops := s0.2.2.2.2 }
    | .conflict =>
      let refetched := popFetch s0.2.2.1
      let ops1 := s0.2.2.2.2 ++ [GhOp.fetchSha]
      let s1 := pushStep env.localContent refetched.1 refetched.2 s0.2.2.2.1 ops1
      match s1.1 with
      | .ok s => { success := true, sha := s, ops := s1.2.2.2.2 }
      | _ => { success := false, sha := s1.2.1, ops := s1.2.2.2.2 }

end GitHubSync

/-- The stop-loss trigger of exit rule 1 (recovery-manager.ts,
lines 94-100): the price has crossed the stop level adversely. -/
def stopLossCond (p : Position) (currentPrice : ℚ) : Prop :=
  (p.side = .long ∧ currentPrice ≤ p.stopLoss) ∨
  (p.side = .short ∧ currentPrice ≥ p.stopLoss)

/-- The take-profit trigger of exit rule 3 (recovery-manager.ts,
line 108): net pnl at the current price reaches `minProfitTarget`. -/
def takeProfitCond (p : Position) (currentPrice : ℚ) : Prop :=
  (RecoveryManager.updateNumbers p currentPrice).2.2 ≥ p.minProfitTarget

/-- What `createPosition` guarantees: status open, stop/target prices from
the configured percentage offsets, direction-aware around a positive entry
price. -/
def createPositionSpec (side : Side) (entryPrice collateral : ℚ)
    (idStr : String) (now : ℚ) : Prop :=
  let p := RecoveryManager.createPosition side entryPrice collateral idStr now
  p.status = .opn ∧
  p.stopLoss = (if side = .long then
      entryPrice * (1 - config.strategy.initialStopPercent / 100)
    else
      entryPrice * (1 + config.strategy.initialStopPercent / 100)) ∧
  p.takeProfit = (if side = .long then
      entryPrice * (1 + config.strategy.targetProfitPercent / 100)
    else
      entryPrice * (1 - config.strategy.targetProfitPercent / 100)) ∧
  (side = .long → p.stopLoss < entryPrice ∧ entryPrice < p.takeProfit) ∧
  (side = .short → entryPrice < p.stopLoss ∧ p.takeProfit < entryPrice)

/-- The pnl fields stored by the pure `closePosition` agree exactly with
the numbers `updatePosition` computes at the same price. -/
def closeMatchesEvaluate (p : Position) (price : ℚ) (reason : String)
    (now : ℚ) : Prop :=
  (RecoveryManager.closePosition p price reason now).grossPnl =
    some (RecoveryManager.updateNumbers p price).1 ∧
  (RecoveryManager.closePosition p price reason now).fees =
    some (RecoveryManager.updateNumbers p price).2.1 ∧
  (RecoveryManager.closePosition p price reason now).pnl =
    some (RecoveryManager.updateNumbers p price).2.2

/-- Frame of `resetDaily`: which fields it writes and which it leaves
untouched. -/
def resetDailyFrame (st : LedgerState) (now : ℚ) : Prop :=
  (Ledger.resetDaily st now).balance = st.balance ∧
  (Ledger.resetDaily st now).positions = st.positions ∧
  (Ledger.resetDaily st now).tradesThisHour = st.tradesThisHour ∧
  (Ledger.resetDaily st now).lastHourReset = st.lastHourReset ∧
  (Ledger.resetDaily st now).pausedUntil = st.pausedUntil ∧
  (Ledger.resetDaily st now).initialBalance = st.initialBalance ∧
  (Ledger.resetDaily st now).dailyStartBalance = st.balance ∧
  (Ledger.resetDaily st now).dailyPnl = 0 ∧
  (Ledger.resetDaily st now).consecutiveLosses = 0 ∧
  (Ledger.resetDaily st now).lastReset = now

/-- Every file-system operation of a persistence trace is a direct write
of a serialised state to the configured ledger path. -/
def directWriteOnly (ops : List FsOp) : Prop :=
  ∀ op ∈ ops, ∃ st, op = FsOp.write config.ledgerPath st

/-- The `pushLedger` never writes the local ledger file, whatever environment
it runs against. -/
def noLocalWrites : Prop :=
  ∀ (tok : Bool) (sha : String) (env : GitHubSync.SyncEnv),
    ∀ op ∈ (GitHubSync.pushLedger tok sha env).ops,
      ∀ c, op ≠ GitHubSync.GhOp.writeLocal c

/-- The behaviour the conflict-retry claim describes, for a push whose
first `PUT` returns 409 and whose re-fetched sha is `fresh`: exactly one
retry, carrying the freshly fetched sha and the unchanged local content;
abandon on a second failure; report the new sha on success. -/
def conflictRetrySpec (sha0 fresh content : String)
    (r2 : GitHubSync.PutResp) : Prop :=
  (GitHubSync.pushLedger true sha0
      { localContent := content, fetchResults := [fresh],
        putResults := [.conflict, r2] }).ops =
    [.readLocal, .put content (some sha0), .fetchSha,
     .readLocal, .put content (some fresh)] ∧
  (r2 = .conflict →
    (GitHubSync.pushLedger true sha0
        { localContent := content, fetchResults := [fresh],
          putResults := [.conflict, r2] }).success = false) ∧
  (∀ s, r2 = .ok s →
    (GitHubSync.pushLedger true sha0
        { localContent := content, fetchResults := [fresh],
          putResults := [.conflict, r2] }).success = true ∧
    (GitHubSync.pushLedger true sha0
        { localContent := content, fetchResults := [fresh],
          putResults := [.conflict, r2] }).sha = s)

/-- A position that is already closed, as stored in the ledger after a
first `closePosition` call: entry 100, closed at 98 for a net pnl of
-10 - fees. -/
def cPosClosed : Position :=
  { id := "a", side := .long, entryPrice := 100, entryTime := 0,
    collateral := 500, leverage := 1, stopLoss := 99, takeProfit := 101,
    minProfitTarget := 35, maxProfitTarget := 100, status := .closed,
    exitPrice := some 98, exitTime := some 50, pnl := some (-10),
    fees := some 0.4, grossPnl := some (-9.6), reason := some "stop-loss" }

/-- Ledger state holding `cPosClosed`: its pnl has already been applied. -/
def cSt1 : LedgerState :=
  { balance := 2000, initialBalance := 2000, dailyStartBalance := 2000,
    dailyPnl := -10, consecutiveLosses := 1, positions := [cPosClosed],
    lastReset := 0, tradesThisHour := 1, lastHourReset := 0,
    pausedUntil := none }

/-- A freshly opened Long position with 500 collateral. -/
def cPosOpen : Position :=
  { id := "b", side := .long, entryPrice := 100, entryTime := 0,
    collateral := 500, leverage := 1, stopLoss := 99.85, takeProfit := 100.25,
    minProfitTarget := 35, maxProfitTarget := 100, status := .opn,
    exitPrice := none, exitTime := none, pnl := none, fees := none,
    grossPnl := none, reason := none }

/-- Ledger state at the daily loss cap with one open position whose close
will win back part of the day's loss. -/
def cSt5 : LedgerState :=
  { balance := 1300, initialBalance := 2000, dailyStartBalance := 2000,
    dailyPnl := -200, consecutiveLosses := 2, positions := [cPosOpen],
    lastReset := 0, tradesThisHour := 0, lastHourReset := 1000,
    pausedUntil := none }

/-- Fresh ledger whose hourly window has long expired, with a nonzero
trade counter. -/
def cSt6 : LedgerState :=
  { Ledger.initState 0 with tradesThisHour := 3 }

/-- Fresh ledger with an active risk pause. -/
def cSt10 : LedgerState :=
  { Ledger.initState 0 with pausedUntil := some 1000 }

/-- A position satisfying the stop-loss condition and the take-profit
condition simultaneously at price 40 (its `minProfitTarget` is set below
the net pnl there). -/
def cPosLadder : Position :=
  { id := "c", side := .long, entryPrice := 100, entryTime := 0,
    collateral := 500, leverage := 75, stopLoss := 50, takeProfit := 200,
    minProfitTarget := -30000, maxProfitTarget := 1000000, status := .opn,
    exitPrice := none, exitTime := none, pnl := none, fees := none,
    grossPnl := none, reason := none }

/-! ## Shared lemmas -/

/-- State effect of `canOpenPosition`: either the state is returned
untouched, or exactly the hourly-window fields were reset, and then only
because more than an hour had elapsed. -/
theorem canOpen_state_cases (st : LedgerState) (now : ℚ) :
    (Ledger.canOpenPosition st now).1 = st ∨
    ((Ledger.canOpenPosition st now).1 =
        { st with tradesThisHour := 0, lastHourReset := now } ∧
      3600000 < now - st.lastHourReset) := by
  unfold Ledger.canOpenPosition
  split
  · exact Or.inl rfl
  split
  · exact Or.inl rfl
  split
  · exact Or.inl rfl
  by_cases h : now - st.lastHourReset > 3600000
  · refine Or.inr ⟨?_, h⟩
    have hr : Ledger.hourlyReset st now =
        { st with tradesThisHour := 0, lastHourReset := now } := by
      simp [Ledger.hourlyReset, h]
    split
    · rw [hr]
    split
    · rw [hr]
    · rw [hr]
  · refine Or.inl ?_
    have hr : Ledger.hourlyReset st now = st := by
      simp [Ledger.hourlyReset, h]
    split
    · rw [hr]
    split
    · rw [hr]
    · rw [hr]

/-- The `canOpenPosition` never changes `dailyPnl`. -/
theorem canOpen_dailyPnl (st : LedgerState) (now : ℚ) :
    (Ledger.canOpenPosition st now).1.dailyPnl = st.dailyPnl := by
  rcases canOpen_state_cases st now with h | ⟨h, _⟩ <;> rw [h]

/-- While `|dailyPnl|` is at or beyond the daily loss cap, the gate
refuses to open. -/
theorem canOpen_blocked_of_dailyLoss (st : LedgerState) (now : ℚ)
    (h : |st.dailyPnl| ≥ config.risk.maxDailyLossDollars) :
    (Ledger.canOpenPosition st now).2.allowed = false := by
  unfold Ledger.canOpenPosition
  by_cases h1 : Ledger.pausedAt st now
  · simp [h1]
  by_cases h2 : (Ledger.openPositions st).length ≥ config.futures.maxPositions
  · simp [h1, h2]
  · simp [h1, h2, h]

/-! ## C6: state effect of canOpenPosition -/

/-- C6 (amended): `canOpenPosition` is not fully pure — it either leaves
the ledger state untouched or resets exactly `tradesThisHour` (to 0) and
`lastHourReset` (to `now`), the latter only when more than 3600000 ms have
elapsed since `lastHourReset`; every other field is always unchanged. -/
theorem canOpenPosition_frame_amended (st : LedgerState) (now : ℚ) :
    (Ledger.canOpenPosition st now).1 = st ∨
    ((Ledger.canOpenPosition st now).1 =
        { st with tradesThisHour := 0, lastHourReset := now } ∧
      3600000 < now - st.lastHourReset) :=
  canOpen_state_cases st now

/-- C6 (counterexample): on a fresh ledger with `tradesThisHour = 3` and an
hourly window that expired 4000000 ms ago, `canOpenPosition` writes the
state: `tradesThisHour` drops from 3 to 0, so the call is not a pure
predicate over the ledger state. -/
theorem canOpenPosition_mutates_counterexample :
    cSt6.tradesThisHour = 3 ∧
    (Ledger.canOpenPosition cSt6 4000000).1.tradesThisHour = 0 ∧
    (Ledger.canOpenPosition cSt6 4000000).1 ≠ cSt6 := by
  refine ⟨rfl, ?_, ?_⟩ <;>
    norm_num [Ledger.canOpenPosition, Ledger.pausedAt, Ledger.openPositions,
      Ledger.availableBalance, Ledger.hourlyReset, cSt6, Ledger.initState, config]

/-! ## C10: frame of resetDaily and pause survival -/

/-- C10: `resetDaily` writes only `dailyStartBalance`, `dailyPnl`,
`consecutiveLosses` and `lastReset`; `balance`, `positions`,
`tradesThisHour`, `lastHourReset` and `pausedUntil` are untouched, and a
still-active pause keeps `canOpenPosition` refusing after the reset even
though `consecutiveLosses` is back to 0. -/
theorem resetDaily_frame_pause_survives (st : LedgerState) (now now2 t : ℚ)
    (hp : st.pausedUntil = some t) (hlt : now2 < t) :
    resetDailyFrame st now ∧
    (Ledger.canOpenPosition (Ledger.resetDaily st now) now2).2.allowed = false := by
  refine ⟨⟨rfl, rfl, rfl, rfl, rfl, rfl, rfl, rfl, rfl, rfl⟩, ?_⟩
  have hpause : Ledger.pausedAt (Ledger.resetDaily st now) now2 = true := by
    simp [Ledger.pausedAt, Ledger.resetDaily, hp, hlt]
  simp [Ledger.canOpenPosition, hpause]

/-- C10 witness: pause until 1000, daily reset at time 5, query at time
500 — still refused. -/
theorem resetDaily_frame_pause_survives_witness :
    resetDailyFrame cSt10 5 ∧
    (Ledger.canOpenPosition (Ledger.resetDaily cSt10 5) 500).2.allowed = false :=
  resetDaily_frame_pause_survives cSt10 5 500 1000 rfl (by norm_num)

/-! ## C8: closePosition and updatePosition share the pnl formula -/

/-- C8: the `grossPnl`/`fees`/`pnl` stored by the pure `closePosition` are
exactly the `grossPnl`/`fees`/`netPnl` that `updatePosition` computes for
the same position at the same price, and `updatePosition`'s decision chain
is driven by exactly those numbers, so the two cannot drift. -/
theorem closePosition_matches_updatePosition (p : Position)
    (price : ℚ) (reason : String) (now tEval : ℚ) :
    closeMatchesEvaluate p price reason now ∧
    RecoveryManager.updatePosition p price tEval =
      RecoveryManager.decisionFromNumbers p price tEval
        (RecoveryManager.updateNumbers p price) :=
  ⟨⟨rfl, rfl, rfl⟩, rfl⟩

/-! ## C9: createPosition derives direction-aware stop and target -/

/-- C9: `createPosition` returns an open position whose `stopLoss` and
`takeProfit` apply the configured percentage offsets to `entryPrice`,
direction-aware: for a positive entry price, Long has the stop below entry
and the target above, Short the reverse. The function is pure — it takes
no ledger state. -/
theorem createPosition_levels (side : Side) (entryPrice collateral : ℚ)
    (idStr : String) (now : ℚ) (hpos : 0 < entryPrice) :
    createPositionSpec side entryPrice collateral idStr now := by
  cases side with
  | long =>
    refine ⟨rfl, by norm_num [RecoveryManager.createPosition, config],
      by norm_num [RecoveryManager.createPosition, config], ?_, ?_⟩
    · intro _
      constructor <;>
        · simp only [RecoveryManager.createPosition, config, if_true]
          norm_num
          nlinarith
    · intro hs
      exact absurd hs (by decide)
  | short =>
    refine ⟨rfl, by norm_num [RecoveryManager.createPosition, config],
      by norm_num [RecoveryManager.createPosition, config], ?_, ?_⟩
    · intro hs
      exact absurd hs (by decide)
    · intro _
      constructor <;>
        · simp only [RecoveryManager.createPosition, config]
          rw [if_neg (by decide)]
          norm_num
          nlinarith

/-- C9 witness: the spec scenario — Long at 70000 with 500 collateral;
the derived stop sits at 69895 = 70000 × (1 − 0.15 %). -/
theorem createPosition_levels_witness :
    createPositionSpec .long 70000 500 "snipe" 0 :=
  createPosition_levels .long 70000 500 "snipe" 0 (by norm_num)

/-! ## C3: stop-loss has first priority in the exit ladder -/

/-- C3: whenever the stop-loss condition holds — even if the take-profit
condition holds at the same position, price and time — `updatePosition`
closes with reason `stop-loss`: rule 1 is checked before every other rule
and the first match wins. -/
theorem updatePosition_stopLoss_priority (p : Position) (currentPrice now : ℚ)
    (hstop : stopLossCond p currentPrice)
    (_htp : takeProfitCond p currentPrice) :
    RecoveryManager.updatePosition p currentPrice now =
      { shouldClose := true, reason := some "stop-loss",
        exitPrice := some currentPrice } := by
  rcases hstop with ⟨hs, hle⟩ | ⟨hs, hge⟩
  · simp [RecoveryManager.updatePosition, hs, hle]
  · simp [RecoveryManager.updatePosition, hs, hge]

/-- C3 witness: `cPosLadder` at price 40 satisfies both the stop-loss
condition (40 ≤ 50) and the take-profit condition (net pnl -22530 ≥
-30000), and the ladder answers `stop-loss`. -/
theorem updatePosition_stopLoss_priority_witness :
    stopLossCond cPosLadder 40 ∧ takeProfitCond cPosLadder 40 ∧
    RecoveryManager.updatePosition cPosLadder 40 5000 =
      { shouldClose := true, reason := some "stop-loss",
        exitPrice := some 40 } := by
  have h1 : stopLossCond cPosLadder 40 := by
    left
    exact ⟨rfl, by norm_num [cPosLadder]⟩
  have h2 : takeProfitCond cPosLadder 40 := by
    norm_num [takeProfitCond, RecoveryManager.updateNumbers,
      RecoveryManager.calcFees, cPosLadder, config]
  exact ⟨h1, h2, updatePosition_stopLoss_priority cPosLadder 40 5000 h1 h2⟩

/-! ## C5: the daily loss cap is not monotone under closes -/

/-- The `openPosition` does not touch `dailyPnl`. -/
theorem openPosition_dailyPnl (st : LedgerState) (p : Position) :
    (Ledger.openPosition st p).dailyPnl = st.dailyPnl := rfl

/-- A query-only call sequence never changes `dailyPnl`. -/
theorem runQuery_dailyPnl (ops : List QueryOp) :
    ∀ st : LedgerState, (Ledger.runQuery st ops).dailyPnl = st.dailyPnl := by
  induction ops with
  | nil => intro st; rfl
  | cons op rest ih =>
    intro st
    cases op with
    | openPos p => rw [Ledger.runQuery, ih, openPosition_dailyPnl]
    | canOpen now => rw [Ledger.runQuery, ih, canOpen_dailyPnl]

/-- C5 (amended): once `|dailyPnl|` is at or beyond `maxDailyLossDollars`,
`canOpenPosition` keeps refusing across any interleaving of further
`canOpenPosition` calls and `openPosition` calls (and price moves, which
do not touch the ledger) — that is, across every operation that leaves
`dailyPnl` unchanged. Only `closePosition` or `resetDaily` can lift the
block before the day ends. -/
theorem dailyLoss_blocks_until_pnl_changes (st : LedgerState)
    (ops : List QueryOp) (now : ℚ)
    (h : |st.dailyPnl| ≥ config.risk.maxDailyLossDollars) :
    (Ledger.canOpenPosition (Ledger.runQuery st ops) now).2.allowed = false :=
  canOpen_blocked_of_dailyLoss _ _ (by rwa [runQuery_dailyPnl])

/-- C5 witness: a fresh ledger pushed to `dailyPnl = -200` stays blocked
through a further query and an open. -/
theorem dailyLoss_blocks_until_pnl_changes_witness :
    |({ Ledger.initState 0 with dailyPnl := -200 } : LedgerState).dailyPnl| ≥
      config.risk.maxDailyLossDollars ∧
    (Ledger.canOpenPosition
        (Ledger.runQuery { Ledger.initState 0 with dailyPnl := -200 }
          [.canOpen 1, .openPos cPosOpen]) 2).2.allowed = false :=
  ⟨by norm_num [Ledger.initState, config],
    dailyLoss_blocks_until_pnl_changes _ _ 2
      (by norm_num [Ledger.initState, config])⟩

/-- C5 (counterexample to the claim as stated): `cSt5` sits at the daily
loss cap (`|−200| ≥ 200`) and `canOpenPosition` refuses — but closing its
open position at 130.08 books +150 of pnl, bringing `dailyPnl` to −50,
and the very next `canOpenPosition` call allows again although
`resetDaily` never ran. -/
theorem dailyLoss_unblocked_by_close_counterexample :
    |cSt5.dailyPnl| ≥ config.risk.maxDailyLossDollars ∧
    (Ledger.canOpenPosition cSt5 1000).2.allowed = false ∧
    (Ledger.canOpenPosition
        (Ledger.closePosition cSt5 "b" 130.08 "take-profit" 1000).1
        1000).2.allowed = true := by
  refine ⟨by norm_num [cSt5, config], ?_, ?_⟩
  · simp [Ledger.canOpenPosition, Ledger.pausedAt, Ledger.openPositions,
      List.filter_cons, cSt5, cPosOpen, config]
  · simp [Ledger.closePosition, findIndex, List.get?,
      RecoveryManager.closePosition, Ledger.canOpenPosition, Ledger.pausedAt,
      Ledger.openPositions, Ledger.availableBalance, Ledger.hourlyReset,
      List.filter_cons, cSt5, cPosOpen]
    norm_num [RecoveryManager.calcFees, config]

/-! ## C1: closing an already-closed id re-applies its pnl -/

/-- C1 (the code, evaluated at the failing input): `cSt1` stores the
already-closed position `cPosClosed` (its −10 pnl already applied, balance
2000). A second `closePosition` on the same id is not a no-op: the code
only guards against a missing id, re-runs the close at the new price and
re-credits `collateral + pnl`, moving balance to 2449.6 and `dailyPnl`
from −10 to −60.4 — the position's P&L is applied twice. -/
theorem closePosition_reapplies_pnl :
    cPosClosed.status = .closed ∧
    (Ledger.closePosition cSt1 "a" 90 "stop-loss" 60).1.balance = 2449.6 ∧
    (Ledger.closePosition cSt1 "a" 90 "stop-loss" 60).1.balance ≠ cSt1.balance ∧
    (Ledger.closePosition cSt1 "a" 90 "stop-loss" 60).1.dailyPnl ≠ cSt1.dailyPnl := by
  refine ⟨rfl, ?_, ?_, ?_⟩ <;>
    norm_num [Ledger.closePosition, findIndex, List.get?,
      RecoveryManager.closePosition, RecoveryManager.calcFees,
      cSt1, cPosClosed, config]

/-! ## C2: conservation -/

/-- Replacing the element at a valid index shifts a mapped sum by the
difference of the images. -/
theorem sum_map_set (f : Position → ℚ) :
    ∀ (l : List Position) (i : ℕ) (x y : Position), l.get? i = some x →
      ((l.set i y).map f).sum = (l.map f).sum - f x + f y := by
  intro l
  induction l with
  | nil =>
    intro i x y h
    cases h
  | cons a as ih =>
    intro i x y h
    cases i with
    | zero =>
      simp only [List.get?] at h
      cases h
      simp only [List.set, List.map, List.sum_cons]
      ring
    | succ n =>
      simp only [List.get?] at h
      simp only [List.set, List.map, List.sum_cons, ih n x y h]
      ring

/-- The `findIndex` returns an in-range index whose element satisfies the
predicate. -/
theorem findIndex_spec (p : α → Bool) :
    ∀ (l : List α) (i : ℕ), findIndex p l = some i →
      ∃ x, l.get? i = some x ∧ p x = true := by
  intro l
  induction l with
  | nil =>
    intro i h
    cases h
  | cons a as ih =>
    intro i h
    by_cases hpa : p a
    · simp only [findIndex, if_pos hpa] at h
      cases h
      exact ⟨a, rfl, hpa⟩
    · simp only [findIndex, if_neg hpa, Option.map_eq_some'] at h
      obtain ⟨j, hj, rfl⟩ := h
      obtain ⟨x, hx, hpx⟩ := ih j hj
      exact ⟨x, by simpa [List.get?] using hx, hpx⟩

/-- The mapped-contribution sum splits into the closed-pnl sum minus the
locked-collateral sum. -/
theorem contribution_sum_split :
    ∀ l : List Position,
      (l.map contribution).sum = closedPnlSum l - lockedCollateralSum l := by
  intro l
  induction l with
  | nil => simp [closedPnlSum, lockedCollateralSum]
  | cons a as ih =>
    simp only [closedPnlSum, lockedCollateralSum, List.filter_cons] at ih ⊢
    by_cases h : (a.status == PStatus.closed) = true
    · simp [h, contribution, ih]
      ring
    · simp [h, contribution, ih]
      ring

/-- The `openPosition` preserves the conservation invariant when the appended
position is not already closed. -/
theorem conserves_openPosition (st : LedgerState) (p : Position)
    (hp : (p.status == PStatus.closed) = false) (h : conserves st) :
    conserves (Ledger.openPosition st p) := by
  unfold conserves at h ⊢
  simp only [Ledger.openPosition, List.map_append, List.sum_append,
    List.map_cons, List.map_nil, List.sum_cons, List.sum_nil]
  rw [contribution, if_neg (by simp [hp])]
  rw [h]
  ring

/-- The `closePosition` preserves the conservation invariant when every stored
position carrying the requested id is not yet closed. -/
theorem conserves_closePosition (st : LedgerState) (posId : String) (px : ℚ)
    (r : String) (t : ℚ)
    (hwf : st.positions.all
      (fun q => !(q.id == posId) || !(q.status == PStatus.closed)) = true)
    (h : conserves st) :
    conserves (Ledger.closePosition st posId px r t).1 := by
  unfold Ledger.closePosition
  cases hfind : findIndex (fun p => p.id == posId) st.positions with
  | none => simpa using h
  | some idx =>
    obtain ⟨x, hx, hpx⟩ := findIndex_spec _ st.positions idx hfind
    have hxmem : x ∈ st.positions := List.get?_mem hx
    have hxopen : (x.status == PStatus.closed) = false := by
      have hall := List.all_eq_true.mp hwf x hxmem
      simpa [hpx] using hall
    simp only [hx]
    unfold conserves at h ⊢
    dsimp only
    rw [sum_map_set contribution st.positions idx x
      (RecoveryManager.closePosition x px r t) hx]
    have hcoll : (RecoveryManager.closePosition x px r t).collateral =
        x.collateral := rfl
    have hcx : contribution x = -x.collateral := by
      simp [contribution, hxopen]
    have hcc : contribution (RecoveryManager.closePosition x px r t) =
        (RecoveryManager.closePosition x px r t).pnl.getD 0 := by
      simp [contribution, RecoveryManager.closePosition]
    rw [hcoll, hcx, hcc]
    linarith [h]

/-- The conservation invariant is preserved along every well-formed call
sequence. -/
theorem conserves_run (ops : List LedgerOp) :
    ∀ st : LedgerState, Ledger.wfTrace st ops = true → conserves st →
      conserves (Ledger.run st ops) := by
  induction ops with
  | nil =>
    intro st _ h
    exact h
  | cons op rest ih =>
    intro st hwf h
    rw [Ledger.run]
    rw [Ledger.wfTrace, Bool.and_eq_true] at hwf
    refine ih _ hwf.2 ?_
    cases op with
    | openPos p =>
      exact conserves_openPosition st p
        (by simpa [Ledger.wfOp] using hwf.1) h
    | closePos posId px r t =>
      exact conserves_closePosition st posId px r t
        (by simpa [Ledger.wfOp] using hwf.1) h

/-- C2 (amended): along any well-formed sequence of `openPosition` /
`closePosition` calls from a fresh ledger — opens append not-yet-closed
positions and closes target ids that are not already closed — the
observable balance satisfies
`balance = initialBalance − Σ(unclosed collateral) + Σ(closed pnl)`.
The claim's `balance = initialBalance + Σ(closed pnl)` is recovered
exactly when no collateral is locked in open positions. -/
theorem ledger_conservation (t0 : ℚ) (ops : List LedgerOp)
    (hwf : Ledger.wfTrace (Ledger.initState t0) ops = true) :
    (Ledger.run (Ledger.initState t0) ops).balance =
      (Ledger.run (Ledger.initState t0) ops).initialBalance
        - lockedCollateralSum (Ledger.run (Ledger.initState t0) ops).positions
        + closedPnlSum (Ledger.run (Ledger.initState t0) ops).positions := by
  have h0 : conserves (Ledger.initState t0) := by
    simp [conserves, Ledger.initState]
  have h := conserves_run ops _ hwf h0
  rw [conserves] at h
  rw [h, contribution_sum_split]
  ring

/-- C2 witness: open `cPosOpen` (collateral 500) on a fresh ledger, then
close it at 130.08; the trace is well-formed and the amended identity
holds at both observation points by the theorem. -/
theorem ledger_conservation_witness :
    Ledger.wfTrace (Ledger.initState 0)
      [.openPos cPosOpen, .closePos "b" 130.08 "take-profit" 10] = true ∧
    (Ledger.run (Ledger.initState 0)
        [.openPos cPosOpen, .closePos "b" 130.08 "take-profit" 10]).balance =
      (Ledger.run (Ledger.initState 0)
          [.openPos cPosOpen, .closePos "b" 130.08 "take-profit" 10]).initialBalance
        - lockedCollateralSum (Ledger.run (Ledger.initState 0)
            [.openPos cPosOpen, .closePos "b" 130.08 "take-profit" 10]).positions
        + closedPnlSum (Ledger.run (Ledger.initState 0)
            [.openPos cPosOpen, .closePos "b" 130.08 "take-profit" 10]).positions := by
  have hwf : Ledger.wfTrace (Ledger.initState 0)
      [.openPos cPosOpen, .closePos "b" 130.08 "take-profit" 10] = true := by
    simp [Ledger.wfTrace, Ledger.wfOp, Ledger.applyOp, Ledger.openPosition,
      Ledger.initState, cPosOpen]
  exact ⟨hwf, ledger_conservation 0 _ hwf⟩

/-- C2 (counterexample to the claim as stated): after a single
`openPosition` of 500 collateral on a fresh ledger there are no closed
positions, yet `balance = 1500 ≠ 2000 = initialBalance + Σ(closed pnl)` —
the stated identity omits the locked collateral of open positions. -/
theorem conservation_claim_counterexample :
    (Ledger.openPosition (Ledger.initState 0) cPosOpen).balance = 1500 ∧
    (Ledger.openPosition (Ledger.initState 0) cPosOpen).initialBalance
      + closedPnlSum (Ledger.openPosition (Ledger.initState 0) cPosOpen).positions
      = 2000 ∧
    (Ledger.openPosition (Ledger.initState 0) cPosOpen).balance ≠
      (Ledger.openPosition (Ledger.initState 0) cPosOpen).initialBalance
        + closedPnlSum (Ledger.openPosition (Ledger.initState 0) cPosOpen).positions := by
  refine ⟨?_, ?_, ?_⟩ <;>
    · simp [Ledger.openPosition, Ledger.initState, closedPnlSum,
        List.filter_cons, cPosOpen, config]
      try norm_num

/-! ## C7: the persisted ledger is a single direct write -/

/-- C7 (counterexample): `save` on a fresh ledger performs exactly one
direct `writeFile` of the serialised state to `ledgerPath`; it is not the
temp-file-then-rename atomic replace pattern the claim requires. -/
theorem save_not_atomic_counterexample :
    Ledger.saveOps (Ledger.initState 0) =
      [FsOp.write config.ledgerPath (Ledger.initState 0)] ∧
    ¬ atomicReplacePattern (Ledger.saveOps (Ledger.initState 0))
        config.ledgerPath := by
  refine ⟨rfl, ?_⟩
  rintro ⟨tmp, content, hne, heq⟩
  simp [Ledger.saveOps] at heq

/-- C7 (amended): after every mutation the ledger record is persisted by a
single direct `writeFile` of the serialised state to `ledgerPath` (none at
all when `closePosition` misses); no temp file and no rename are involved,
so a crash mid-write can leave a partially written file. -/
theorem ledger_persistence_direct_write (st : LedgerState) (p : Position)
    (posId : String) (px : ℚ) (r : String) (t : ℚ) :
    Ledger.openPositionOps st p =
      [FsOp.write config.ledgerPath (Ledger.openPosition st p)] ∧
    directWriteOnly (Ledger.openPositionOps st p) ∧
    directWriteOnly (Ledger.closePositionOps st posId px r t) ∧
    directWriteOnly (Ledger.saveOps st) ∧
    ¬ atomicReplacePattern (Ledger.saveOps st) config.ledgerPath ∧
    ¬ atomicReplacePattern (Ledger.openPositionOps st p) config.ledgerPath := by
  refine ⟨rfl, ?_, ?_, ?_, ?_, ?_⟩
  · intro op hop
    simp only [Ledger.openPositionOps, Ledger.saveOps, List.mem_singleton] at hop
    exact ⟨_, hop⟩
  · intro op hop
    unfold Ledger.closePositionOps at hop
    cases hfind : findIndex (fun q => q.id == posId) st.positions with
    | none =>
      rw [hfind] at hop
      cases hop
    | some idx =>
      rw [hfind] at hop
      simp only [Ledger.saveOps, List.mem_singleton] at hop
      exact ⟨_, hop⟩
  · intro op hop
    simp only [Ledger.saveOps, List.mem_singleton] at hop
    exact ⟨_, hop⟩
  · rintro ⟨tmp, content, hne, heq⟩
    simp [Ledger.saveOps] at heq
  · rintro ⟨tmp, content, hne, heq⟩
    simp [Ledger.openPositionOps, Ledger.saveOps] at heq

/-! ## C4: replication conflict is retried exactly once -/

/-- One `pushLedger` loop iteration adds only reads, sha fetches and puts
to the operation trace: never a local write. -/
theorem pushStep_no_writeLocal (localContent sha : String)
    (fetchQ : List String) (putQ : List GitHubSync.PutResp)
    (acc : List GitHubSync.GhOp)
    (hacc : ∀ op ∈ acc, ∀ c, op ≠ GitHubSync.GhOp.writeLocal c) :
    ∀ op ∈ (GitHubSync.pushStep localContent sha fetchQ putQ acc).2.2.2.2,
      ∀ c, op ≠ GitHubSync.GhOp.writeLocal c := by
  intro op hop c hEq
  subst hEq
  unfold GitHubSync.pushStep at hop
  by_cases h : sha = "" <;>
    · simp only [h, ite_true, ite_false, List.append_assoc, List.mem_append,
        List.mem_singleton] at hop
      rcases hop with h1 | h2
      · exact hacc _ h1 c rfl
      · simp_all

/-- The `pushLedger` never writes the local ledger file. -/
theorem pushLedger_no_local_writes : noLocalWrites := by
  intro tok sha env op hop c hEq
  subst hEq
  have hnil : ∀ o ∈ ([] : List GitHubSync.GhOp),
      ∀ c1, o ≠ GitHubSync.GhOp.writeLocal c1 := by
    intro o ho
    cases ho
  have hacc1 : ∀ o ∈ (GitHubSync.pushStep env.localContent sha
      env.fetchResults env.putResults []).2.2.2.2 ++ [GitHubSync.GhOp.fetchSha],
      ∀ c1, o ≠ GitHubSync.GhOp.writeLocal c1 := by
    intro o ho c1
    rcases List.mem_append.mp ho with ho1 | ho2
    · exact pushStep_no_writeLocal _ _ _ _ _ hnil o ho1 c1
    · rw [List.mem_singleton.mp ho2]
      simp
  unfold GitHubSync.pushLedger at hop
  split at hop
  · exact absurd hop (List.not_mem_nil _)
  · dsimp only at hop
    split at hop
    · exact pushStep_no_writeLocal env.localContent sha env.fetchResults
        env.putResults [] hnil _ hop c rfl
    · exact pushStep_no_writeLocal env.localContent sha env.fetchResults
        env.putResults [] hnil _ hop c rfl
    · split at hop
      · dsimp only at hop
        exact pushStep_no_writeLocal _ _ _ _ _ hacc1 _ hop c rfl
      · dsimp only at hop
        exact pushStep_no_writeLocal _ _ _ _ _ hacc1 _ hop c rfl

/-- C4: a push whose first `PUT` returns 409 is retried exactly once, the
retry reads the local file again and carries the freshly re-fetched sha;
a second failure abandons the push (`success = false`) with no third
attempt; a successful retry reports the new sha; and across every
environment `pushLedger` performs no local write — the local ledger is
never modified or rolled back. The put carries the unchanged local
content, so after a conflict-then-success sequence the remote holds
exactly the local state. -/
theorem pushLedger_conflict_retry (sha0 fresh content : String)
    (r2 : GitHubSync.PutResp) (h0 : sha0 ≠ "") (hf : fresh ≠ "") :
    conflictRetrySpec sha0 fresh content r2 ∧ noLocalWrites := by
  refine ⟨?_, pushLedger_no_local_writes⟩
  unfold conflictRetrySpec
  refine ⟨?_, ?_, ?_⟩
  · rcases r2 with s | _ | _ <;>
      simp [GitHubSync.pushLedger, GitHubSync.pushStep,
        GitHubSync.popFetch, GitHubSync.popPut, h0, hf]
  · rintro rfl
    simp [GitHubSync.pushLedger, GitHubSync.pushStep,
      GitHubSync.popFetch, GitHubSync.popPut, h0, hf]
  · rintro s rfl
    refine ⟨?_, ?_⟩ <;>
      simp [GitHubSync.pushLedger, GitHubSync.pushStep,
        GitHubSync.popFetch, GitHubSync.popPut, h0, hf]

/-- C4 witness: concrete conflict-then-success run. -/
theorem pushLedger_conflict_retry_witness :
    conflictRetrySpec "sha-a" "sha-b" "ledger-json" (.ok "sha-c") ∧
    noLocalWrites :=
  pushLedger_conflict_retry "sha-a" "sha-b" "ledger-json" (.ok "sha-c")
    (by simp) (by simp)
